import Mathlib

/-!
# Verification of the sovereignty-audit core against its specification

This file embeds, in Lean 4, the core functions of the sovereign_audit
repository (scoring engine, fingerprint matcher, resource extractor,
URL normalization) and proves or refutes the specification claims about
them.  Python / JavaScript string and numeric operations are modelled
over `String` (as lists of characters) and `ℚ` (Python floats are
modelled as exact rationals; every constant in the sources is a small
decimal, so the structural claims proved here are insensitive to
floating-point rounding).
-/

set_option maxRecDepth 100000

namespace SovereignAudit

/-! ## Basic string utilities (Python / JavaScript semantics) -/

/-- Python `needle in hay` for strings: substring containment
(case-sensitive). -/
def containsSub (needle hay : String) : Bool :=
  hay.data.tails.any (fun t => needle.data.isPrefixOf t)

/-- Python `needle in hay` on character lists. -/
def containsSubL (needle hay : List Char) : Bool :=
  hay.tails.any (fun t => needle.isPrefixOf t)

/-- Python `str.upper()` (ASCII, which is all the sources use). -/
def pyToUpper (s : String) : String := s.toUpper

/-- Python `str.lower()` (ASCII, which is all the sources use). -/
def pyToLower (s : String) : String := s.toLower

/-! ## Scoring Engine — `calculate_weighted_score` (src/unnamed/part_005)

```python
VENDOR_CATEGORY_WEIGHTS = {
    "Database/Storage": 1.5, "Cloud Infrastructure": 1.4,
    "Authentication": 1.4, "Payment Processing": 1.4,
    "AI/ML Processing": 1.5,
    "Email Service": 1.2, "Customer Support": 1.2,
    "SMS/Communications": 1.2, "Backup/DR": 1.3,
    "Analytics": 1.0, "Monitoring/APM": 1.0, "Error Tracking": 1.0,
    "CDN": 0.8, "DNS": 0.6, "Marketing/Email": 0.9, "A/B Testing": 0.8,
}

def calculate_weighted_score(vendors: list) -> int:
    score = 100
    for vendor in vendors:
        category = vendor.get("category", "Unknown")
        weight = VENDOR_CATEGORY_WEIGHTS.get(category, 1.0)
        if "US" in vendor["location"]:
            penalty = 12 * weight
        elif "GLOBAL" in vendor["location"]:
            penalty = 8 * weight
        else:
            penalty = 0
        score -= penalty
    return max(0, min(100, score))
```
-/

/-- The `VENDOR_CATEGORY_WEIGHTS` dict of src/unnamed/part_005
(insertion order preserved, Python ≥3.7). -/
def VENDOR_CATEGORY_WEIGHTS : List (String × ℚ) :=
  [("Database/Storage", 1.5), ("Cloud Infrastructure", 1.4),
   ("Authentication", 1.4), ("Payment Processing", 1.4),
   ("AI/ML Processing", 1.5),
   ("Email Service", 1.2), ("Customer Support", 1.2),
   ("SMS/Communications", 1.2), ("Backup/DR", 1.3),
   ("Analytics", 1.0), ("Monitoring/APM", 1.0), ("Error Tracking", 1.0),
   ("CDN", 0.8), ("DNS", 0.6), ("Marketing/Email", 0.9),
   ("A/B Testing", 0.8)]

/-- Python `dict.get(key, default)` over an association list whose keys
are pairwise distinct (as a Python dict's are). -/
def dictGet (d : List (String × ℚ)) (k : String) (default : ℚ) : ℚ :=
  match d.find? (fun p => p.1 == k) with
  | some p => p.2
  | none => default

/-- A vendor record as consumed by `calculate_weighted_score`: the
function reads `vendor.get("category", "Unknown")` (the key may be
absent, hence `Option`) and `vendor["location"]`. -/
structure PyVendor where
  category : Option String
  location : String
deriving DecidableEq, Repr

/-- The penalty the body of `calculate_weighted_score`'s loop subtracts
for one vendor. -/
def vendor_penalty (v : PyVendor) : ℚ :=
  let category := v.category.getD ("Unknown")
  let weight := dictGet VENDOR_CATEGORY_WEIGHTS category 1.0
  if containsSub ("US") v.location then 12 * weight
  else if containsSub ("GLOBAL") v.location then 8 * weight
  else 0

/-- Python function `calculate_weighted_score` from src/unnamed/part_005 lines 381-401. -/
def calculate_weighted_score (vendors : List PyVendor) : ℚ :=
  let score := vendors.foldl (fun s v => s - vendor_penalty v) 100
  max 0 (min 100 score)

/-! ## Scoring Engine — `get_category_weight` (src/unnamed/part_004)

```python
CATEGORY_WEIGHTS = {
    "AI/ML": 1.5, "Payment Processing": 1.4, "Database/Storage": 1.4,
    "Cloud Infrastructure": 1.4, "Authentication": 1.3,
    "Email Service": 1.2, "Customer Support": 1.2,
    "Analytics": 1.0, "Monitoring": 1.0, "CDN": 0.8, "Fonts": 0.7,
    "Tag Management": 1.1,
}

def get_category_weight(purpose: str) -> float:
    purpose_upper = purpose.upper()
    for category, weight in CATEGORY_WEIGHTS.items():
        if category.upper() in purpose_upper:
            return weight
    return 1.0  # Default weight
```
-/

/-- The `CATEGORY_WEIGHTS` dict of src/unnamed/part_004. -/
def CATEGORY_WEIGHTS : List (String × ℚ) :=
  [("AI/ML", 1.5), ("Payment Processing", 1.4), ("Database/Storage", 1.4),
   ("Cloud Infrastructure", 1.4), ("Authentication", 1.3),
   ("Email Service", 1.2), ("Customer Support", 1.2),
   ("Analytics", 1.0), ("Monitoring", 1.0), ("CDN", 0.8), ("Fonts", 0.7),
   ("Tag Management", 1.1)]

/-- Python function `get_category_weight` from src/unnamed/part_004 lines 460-470:
first table entry whose upper-cased key occurs in the upper-cased
purpose, default 1.0. -/
def get_category_weight (purpose : String) : ℚ :=
  let purpose_upper := pyToUpper purpose
  match CATEGORY_WEIGHTS.find?
      (fun p => containsSub (pyToUpper p.1) purpose_upper) with
  | some p => p.2
  | none => 1.0

/-- The base penalty by location, read off the branch structure of
`calculate_weighted_score`: 12 when the location contains the
(case-sensitive) substring `"US"`, 8 when it contains `"GLOBAL"`,
0 otherwise. -/
def base_penalty (location : String) : ℚ :=
  if containsSub ("US") location then 12
  else if containsSub ("GLOBAL") location then 8
  else 0

/-- The category weight used by `calculate_weighted_score`: exact-key
lookup in `VENDOR_CATEGORY_WEIGHTS` with default 1.0. -/
def category_weight (category : String) : ℚ :=
  dictGet VENDOR_CATEGORY_WEIGHTS category 1.0

theorem vendor_penalty_eq (v : PyVendor) :
    vendor_penalty v =
      base_penalty v.location * category_weight (v.category.getD ("Unknown")) := by
  unfold vendor_penalty base_penalty category_weight
  by_cases h1 : containsSub ("US") v.location = true <;>
    by_cases h2 : containsSub ("GLOBAL") v.location = true <;>
      simp [h1, h2]

theorem foldl_sub_eq (f : PyVendor → ℚ) (a : ℚ) (l : List PyVendor) :
    l.foldl (fun s v => s - f v) a = a - (l.map f).sum := by
  induction l generalizing a with
  | nil => simp
  | cons x xs ih => simp [List.foldl_cons, ih, List.sum_cons]; ring

theorem calculate_weighted_score_eq (vendors : List PyVendor) :
    calculate_weighted_score vendors =
      max 0 (min 100 (100 - (vendors.map vendor_penalty).sum)) := by
  unfold calculate_weighted_score
  rw [foldl_sub_eq]

/-- The risk-level labels of the data model. -/
inductive RiskLevel where
  | High | Medium | Low
deriving DecidableEq, Repr

/-- Modelled from the spec: the risk-level classifier of the Scoring
Engine is not under src/ (only the planning documents and the frontend
are); §4.5 of the spec specifies it as `High` below threshold A,
`Medium` below threshold B, else `Low`, with the thresholds passed as
parameters. -/
def risk_level (tA tB score : ℚ) : RiskLevel :=
  if score < tA then .High else if score < tB then .Medium else .Low

/-- C2 counterexample: the claim says the base penalty is a (positive)
smaller constant whenever the vendor's location is global/unspecified,
and a fixed positive constant when the location is outside the
protected jurisdiction.  But the code tests the case-sensitive
substrings `"US"` and `"GLOBAL"`, so a vendor located `"Global"`
(global) or `"Unknown"` (the spec's own sentinel for an unspecified
location) — and even one located `"United States"` — incurs a zero
deduction: the whole score stays 100, while the claim demands a
deduction of `8 × categoryWeight ≠ 0` for each of the two vendors. -/
theorem c2_penalty_counterexample :
    calculate_weighted_score
      [⟨some ("CDN"), "Global"⟩, ⟨some ("Analytics"), "Unknown"⟩] = 100 ∧
    base_penalty ("Global") = 0 ∧ base_penalty ("Unknown") = 0 ∧
    base_penalty ("United States") = 0 ∧
    (8 : ℚ) * category_weight ("CDN") ≠ 0 ∧
    (8 : ℚ) * category_weight ("Analytics") ≠ 0 := by
  have b1 : base_penalty ("Global") = 0 := by
    unfold base_penalty
    rw [show containsSub ("US") "Global" = false from by decide,
        show containsSub ("GLOBAL") "Global" = false from by decide]
    simp
  have b2 : base_penalty ("Unknown") = 0 := by
    unfold base_penalty
    rw [show containsSub ("US") "Unknown" = false from by decide,
        show containsSub ("GLOBAL") "Unknown" = false from by decide]
    simp
  have b3 : base_penalty ("United States") = 0 := by
    unfold base_penalty
    rw [show containsSub ("US") "United States" = false from by decide,
        show containsSub ("GLOBAL") "United States" = false from by decide]
    simp
  have wCdn : category_weight ("CDN") = 0.8 := rfl
  have wAn : category_weight ("Analytics") = 1.0 := rfl
  refine ⟨?_, b1, b2, b3, by rw [wCdn]; norm_num, by rw [wAn]; norm_num⟩
  rw [calculate_weighted_score_eq]
  rw [show (([⟨some ("CDN"), "Global"⟩, ⟨some ("Analytics"), "Unknown"⟩] :
        List PyVendor).map vendor_penalty)
      = [base_penalty ("Global") * category_weight ("CDN"),
         base_penalty ("Unknown") * category_weight ("Analytics")] from by
    simp [vendor_penalty_eq]]
  rw [b1, b2]
  norm_num

/-- C2 (amended): for every vendor the Scoring Engine deducts
`base_penalty(location) × category_weight(category)`, where
`base_penalty` is 12 when the location contains the case-sensitive
substring `"US"`, 8 when it contains `"GLOBAL"`, and 0 otherwise, and
`category_weight` maps every category to a multiplier in [0.6, 1.5]
(exact-key lookup with default 1.0); the part_004 variant
`get_category_weight` (substring lookup, default 1.0) also always lies
in [0.6, 1.5]. -/
theorem c2_weighted_deduction_structure (vendors : List PyVendor) :
    calculate_weighted_score vendors =
      max 0 (min 100 (100 - (vendors.map (fun v =>
        base_penalty v.location *
          category_weight (v.category.getD ("Unknown")))).sum)) ∧
    (∀ p ∈ VENDOR_CATEGORY_WEIGHTS, (0.6 : ℚ) ≤ p.2 ∧ p.2 ≤ 1.5) ∧
    (∀ c : String,
      VENDOR_CATEGORY_WEIGHTS.find? (fun p => p.1 == c) = none →
        category_weight c = 1.0) ∧
    (∀ c : String, (0.6 : ℚ) ≤ category_weight c ∧ category_weight c ≤ 1.5) ∧
    (∀ purpose : String,
      (0.6 : ℚ) ≤ get_category_weight purpose ∧
        get_category_weight purpose ≤ 1.5) := by
  have hw : ∀ p ∈ VENDOR_CATEGORY_WEIGHTS, (0.6 : ℚ) ≤ p.2 ∧ p.2 ≤ 1.5 := by
    intro p hp
    fin_cases hp <;> norm_num
  have hw4 : ∀ p ∈ CATEGORY_WEIGHTS, (0.6 : ℚ) ≤ p.2 ∧ p.2 ≤ 1.5 := by
    intro p hp
    fin_cases hp <;> norm_num
  refine ⟨?_, hw, ?_, ?_, ?_⟩
  · have hm : vendors.map vendor_penalty = vendors.map (fun v =>
        base_penalty v.location * category_weight (v.category.getD ("Unknown"))) :=
      List.map_congr_left (fun v _ => vendor_penalty_eq v)
    rw [calculate_weighted_score_eq, hm]
  · intro c h
    unfold category_weight dictGet
    rw [h]
  · intro c
    unfold category_weight dictGet
    rcases h : VENDOR_CATEGORY_WEIGHTS.find? (fun p => p.1 == c) with _ | p <;>
      simp only [h]
    · norm_num
    · exact hw p (List.mem_of_find?_eq_some h)
  · intro purpose
    unfold get_category_weight
    dsimp only
    rcases h : CATEGORY_WEIGHTS.find?
        (fun p => containsSub (pyToUpper p.1) (pyToUpper purpose)) with _ | p <;>
      simp only [h]
    · norm_num
    · exact hw4 p (List.mem_of_find?_eq_some h)

/-- C2 amended-theorem witness: the implication conjuncts discharged at
concrete inputs (unlisted category `"Blogging"` gets the default weight
1.0, which lies in [0.6, 1.5]). -/
theorem c2_weighted_deduction_structure_witness :
    category_weight ("Blogging") = 1.0 ∧
    (0.6 : ℚ) ≤ get_category_weight ("Blogging") ∧
      get_category_weight ("Blogging") ≤ 1.5 :=
  ⟨(c2_weighted_deduction_structure []).2.2.1 ("Blogging") (by decide),
   (c2_weighted_deduction_structure []).2.2.2.2 "Blogging"⟩

/-- C3: the score returned by `calculate_weighted_score` always lies in
[0, 100], and it equals the clamp, applied exactly once, of the running
total obtained after all per-vendor deductions (never clamped
mid-sequence) — even when the summed deductions exceed 100. -/
theorem c3_score_clamped_once (vendors : List PyVendor) :
    0 ≤ calculate_weighted_score vendors ∧
    calculate_weighted_score vendors ≤ 100 ∧
    calculate_weighted_score vendors =
      max 0 (min 100 (100 - (vendors.map vendor_penalty).sum)) := by
  refine ⟨?_, ?_, calculate_weighted_score_eq vendors⟩ <;>
    rw [calculate_weighted_score_eq]
  · exact le_max_left 0 _
  · exact max_le (by norm_num) (min_le_left 100 _)

/-- C4: the Scoring Engine is a deterministic pure function of the
vendor facts — any two vendor lists containing the same vendors (in any
internal order of deduction application) yield the same score and the
same risk level, for every threshold pair. -/
theorem c4_scoring_deterministic (v₁ v₂ : List PyVendor) (tA tB : ℚ)
    (h : v₁.Perm v₂) :
    calculate_weighted_score v₁ = calculate_weighted_score v₂ ∧
    risk_level tA tB (calculate_weighted_score v₁) =
      risk_level tA tB (calculate_weighted_score v₂) := by
  have hs : calculate_weighted_score v₁ = calculate_weighted_score v₂ := by
    rw [calculate_weighted_score_eq, calculate_weighted_score_eq,
      (h.map vendor_penalty).sum_eq]
  exact ⟨hs, by rw [hs]⟩

/-- C4 witness: determinism instantiated at a concrete permuted pair of
vendor lists and concrete thresholds. -/
theorem c4_scoring_deterministic_witness :
    calculate_weighted_score
        [⟨some ("AI/ML Processing"), "USA"⟩, ⟨some ("CDN"), "GLOBAL"⟩] =
      calculate_weighted_score
        [⟨some ("CDN"), "GLOBAL"⟩, ⟨some ("AI/ML Processing"), "USA"⟩] ∧
    risk_level 70 85 (calculate_weighted_score
        [⟨some ("AI/ML Processing"), "USA"⟩, ⟨some ("CDN"), "GLOBAL"⟩]) =
      risk_level 70 85 (calculate_weighted_score
        [⟨some ("CDN"), "GLOBAL"⟩, ⟨some ("AI/ML Processing"), "USA"⟩]) :=
  c4_scoring_deterministic _ _ 70 85
    (List.Perm.swap (⟨some ("CDN"), "GLOBAL"⟩ : PyVendor)
      (⟨some ("AI/ML Processing"), "USA"⟩ : PyVendor) [])


/-! ## Python URL parsing (urllib.parse, CPython 3.11)

The Resource Extractor (src/unnamed/part_004, `analyze_embedded_resources`)
resolves each matched reference with `urljoin(base_url, ref)` and reads
`urlparse(full_url).netloc`.  The functions below translate CPython
3.11's `urllib.parse.urlsplit` / `urlparse` / `urlunsplit` /
`urlunparse` / `urljoin` (the deployment's interpreter per the
Dockerfile) to character lists.  The only deliberate deviation: the
`ValueError` urlsplit raises on unbalanced IPv6 brackets and its NFKC
netloc check are omitted — the split is total here; no claim involves
bracketed hosts. -/

/-- The `scheme_chars` set of urllib.parse. -/
def isSchemeChar (c : Char) : Bool :=
  c.isAlpha || c.isDigit || c == '+' || c == '-' || c == '.'

/-- urlsplit first deletes the unsafe bytes tab/CR/LF. -/
def removeUnsafe (l : List Char) : List Char :=
  l.filter (fun c => !(c == '\t' || c == '\r' || c == '\n'))

/-- The result of `urlsplit`. -/
structure SplitResult where
  scheme : List Char
  netloc : List Char
  path : List Char
  query : List Char
  fragment : List Char
deriving DecidableEq, Repr

/-- Python `urllib.parse.urlsplit(url, scheme)` with
`allow_fragments=True` (the only mode the repository uses). -/
def urlsplit (url0 : List Char) (defaultScheme : List Char) : SplitResult :=
  let url1 := removeUnsafe url0
  let dsch := removeUnsafe defaultScheme
  let sr :=
    match List.findIdx? (fun c => c == ':') url1 with
    | some i =>
      if (decide (0 < i) &&
          (match url1 with | c :: _ => c.isAlpha | [] => false) &&
          (url1.take i).all isSchemeChar) = true
      then ((url1.take i).map Char.toLower, url1.drop (i + 1))
      else (dsch, url1)
    | none => (dsch, url1)
  let nu :=
    if ("//".data).isPrefixOf sr.2 then
      let rest := sr.2.drop 2
      (rest.takeWhile (fun c => !(c == '/' || c == '?' || c == '#')),
       rest.dropWhile (fun c => !(c == '/' || c == '?' || c == '#')))
    else ([], sr.2)
  let uf :=
    if nu.2.any (fun c => c == '#') then
      (nu.2.takeWhile (fun c => !(c == '#')),
       (nu.2.dropWhile (fun c => !(c == '#'))).tail)
    else (nu.2, [])
  let uq :=
    if uf.1.any (fun c => c == '?') then
      (uf.1.takeWhile (fun c => !(c == '?')),
       (uf.1.dropWhile (fun c => !(c == '?'))).tail)
    else (uf.1, [])
  ⟨sr.1, nu.1, uq.1, uq.2, uf.2⟩

/-- The result of `urlparse`. -/
structure ParseResult where
  scheme : List Char
  netloc : List Char
  path : List Char
  params : List Char
  query : List Char
  fragment : List Char
deriving DecidableEq, Repr

/-- Python `urllib.parse._splitparams`: split the params off the last
path segment. -/
def splitParams (url : List Char) : List Char × List Char :=
  if url.any (fun c => c == '/') then
    let suffix := (url.reverse.takeWhile (fun c => !(c == '/'))).reverse
    if suffix.any (fun c => c == ';') then
      let s1 := suffix.takeWhile (fun c => !(c == ';'))
      let s2 := (suffix.dropWhile (fun c => !(c == ';'))).tail
      (url.take (url.length - suffix.length + s1.length), s2)
    else (url, [])
  else
    if url.any (fun c => c == ';') then
      (url.takeWhile (fun c => !(c == ';')),
       (url.dropWhile (fun c => !(c == ';'))).tail)
    else (url, [])

/-- Python `urllib.parse.urlparse(url, scheme)`. -/
def urlparse (url : List Char) (defaultScheme : List Char) : ParseResult :=
  let s := urlsplit url defaultScheme
  if s.path.any (fun c => c == ';') then
    let pp := splitParams s.path
    ⟨s.scheme, s.netloc, pp.1, pp.2, s.query, s.fragment⟩
  else ⟨s.scheme, s.netloc, s.path, [], s.query, s.fragment⟩

/-- Python `urllib.parse.urlunsplit`. -/
def urlunsplit (scheme netloc path query fragment : List Char) : List Char :=
  let url1 :=
    if ¬ netloc = [] ∨ (¬ path = [] ∧ ("//".data).isPrefixOf path) then
      let url' := if ¬ path = [] ∧ ¬ ("/".data).isPrefixOf path
                  then '/' :: path else path
      "//".data ++ netloc ++ url'
    else path
  let url2 := if ¬ scheme = [] then scheme ++ ':' :: url1 else url1
  let url3 := if ¬ query = [] then url2 ++ '?' :: query else url2
  if ¬ fragment = [] then url3 ++ '#' :: fragment else url3

/-- Python `urllib.parse.urlunparse`. -/
def urlunparse (scheme netloc path params query fragment : List Char) :
    List Char :=
  let p := if ¬ params = [] then path ++ ';' :: params else path
  urlunsplit scheme netloc p query fragment

/-- urllib.parse's `uses_relative` scheme list. -/
def uses_relative : List (List Char) :=
  [[], "ftp".data, "http".data, "gopher".data, "nntp".data, "imap".data,
   "wais".data, "file".data, "https".data, "shttp".data, "mms".data,
   "prospero".data, "rtsp".data, "rtspu".data, "sftp".data, "svn".data,
   "svn+ssh".data, "ws".data, "wss".data]

/-- urllib.parse's `uses_netloc` scheme list. -/
def uses_netloc : List (List Char) :=
  [[], "ftp".data, "http".data, "gopher".data, "nntp".data, "telnet".data,
   "imap".data, "wais".data, "file".data, "mms".data, "https".data,
   "shttp".data, "snews".data, "prospero".data, "rtsp".data, "rtspu".data,
   "rsync".data, "svn".data, "svn+ssh".data, "sftp".data, "nfs".data,
   "git".data, "git+ssh".data, "ws".data, "wss".data, "itms-services".data]

/-- urljoin's `segments[1:-1] = filter(None, segments[1:-1])`. -/
def filterInterior (segs : List (List Char)) : List (List Char) :=
  match segs with
  | [] => []
  | [a] => [a]
  | a :: rest =>
    a :: ((rest.dropLast.filter (fun s => !(s == []))) ++ [rest.getLastD []])

/-- urljoin's `.`/`..` resolution loop (pop on `..`, skip `.`). -/
def resolveSegs (segs : List (List Char)) : List (List Char) :=
  segs.foldl (fun acc seg =>
    if seg == "..".data then acc.dropLast
    else if seg == ".".data then acc
    else acc ++ [seg]) []

/-- Python `urllib.parse.urljoin(base, url)` (CPython 3.11). -/
def urljoin (base url : List Char) : List Char :=
  if base = [] then url
  else if url = [] then base
  else
    let b := urlparse base []
    let u := urlparse url b.scheme
    if ¬ (u.scheme == b.scheme) = true ∨ ¬ uses_relative.contains u.scheme then
      url
    else
      let netloc := if uses_netloc.contains u.scheme ∧ u.netloc = []
                    then b.netloc else u.netloc
      if uses_netloc.contains u.scheme ∧ ¬ u.netloc = [] then
        urlunparse u.scheme u.netloc u.path u.params u.query u.fragment
      else if u.path = [] ∧ u.params = [] then
        urlunparse u.scheme netloc b.path b.params
          (if u.query = [] then b.query else u.query) u.fragment
      else
        let base_parts0 := b.path.splitOn '/'
        let base_parts := if ¬ base_parts0.getLastD [] = []
                          then base_parts0.dropLast else base_parts0
        let segments :=
          if ("/".data).isPrefixOf u.path then u.path.splitOn '/'
          else filterInterior (base_parts ++ u.path.splitOn '/')
        let resolved0 := resolveSegs segments
        let resolved := if segments.getLastD [] == ".".data ∨
                           segments.getLastD [] == "..".data
                        then resolved0 ++ [[]] else resolved0
        let joined := List.intercalate ['/'] resolved
        urlunparse u.scheme netloc (if joined = [] then "/".data else joined)
          u.params u.query u.fragment

/-! ## Regular-expression scanning (Python re.findall)

Each extraction pattern of `analyze_embedded_resources` uses only
literals, character-class repetitions and one literal alternation, so
`re.findall` is implemented by an exact backtracking matcher over that
item language: greedy repetition (longest remainder first), leftmost
non-overlapping scan, one capture group per pattern, IGNORECASE literal
comparison. -/

/-- One item of a pattern: a (case-insensitive) literal, a single /
optional / starred / plussed character class, or a literal
alternation. -/
inductive RItem where
  | lit : List Char → RItem
  | one : (Char → Bool) → RItem
  | opt : (Char → Bool) → RItem
  | star : (Char → Bool) → RItem
  | plus : (Char → Bool) → RItem
  | alts : List (List Char) → RItem

/-- Strip a case-insensitive literal from the head. -/
def stripLitCI : List Char → List Char → Option (List Char)
  | [], l => some l
  | _ :: _, [] => none
  | p :: ps, c :: cs =>
    if c.toLower == p.toLower then stripLitCI ps cs else none

/-- Remainders after a greedy `class*`, longest consumption first (the
backtracking priority order of a greedy star). -/
def starRests (p : Char → Bool) : List Char → List (List Char)
  | [] => [[]]
  | c :: cs => if p c then starRests p cs ++ [c :: cs] else [c :: cs]

/-- Remainders after one item, in backtracking priority order. -/
def itemRests : RItem → List Char → List (List Char)
  | .lit p, l => match stripLitCI p l with | some r => [r] | none => []
  | .one p, l => match l with
    | c :: cs => if p c then [cs] else []
    | [] => []
  | .opt p, l => match l with
    | c :: cs => if p c then [cs, c :: cs] else [c :: cs]
    | [] => [[]]
  | .star p, l => starRests p l
  | .plus p, l => match l with
    | c :: cs => if p c then starRests p cs else []
    | [] => []
  | .alts ps, l => ps.filterMap (fun p => stripLitCI p l)

/-- Remainders after an item sequence, in backtracking priority order
(earlier items' preferences dominate). -/
def seqRests : List RItem → List Char → List (List Char)
  | [], l => [l]
  | it :: its, l => (itemRests it l).flatMap (seqRests its)

/-- Try the pattern `pre (cap) post` anchored at the current position;
on success return the text captured by `cap` and the remainder after
the whole match, for the first parse in backtracking order. -/
def tryMatch (pre cap post : List RItem) (s : List Char) :
    Option (List Char × List Char) :=
  (seqRests pre s).findSome? (fun r1 =>
    (seqRests cap r1).findSome? (fun r2 =>
      match seqRests post r2 with
      | [] => none
      | r3 :: _ => some (r1.take (r1.length - r2.length), r3)))

/-- The leftmost non-overlapping scan of `re.findall` (fuel = input
length + 1, which the position arithmetic never exhausts). -/
def findallAux (pre cap post : List RItem) : Nat → List Char → List (List Char)
  | 0, _ => []
  | _ + 1, [] =>
    match tryMatch pre cap post [] with
    | some cr => [cr.1]
    | none => []
  | fuel + 1, c :: cs =>
    match tryMatch pre cap post (c :: cs) with
    | some cr =>
      if cr.2.length < (c :: cs).length then
        cr.1 :: findallAux pre cap post fuel cr.2
      else cr.1 :: findallAux pre cap post fuel cs
    | none => findallAux pre cap post fuel cs

/-- Python `re.findall(pattern, s, re.IGNORECASE)`, the capture of
group 1 per match. -/
def findall (pre cap post : List RItem) (s : List Char) : List (List Char) :=
  findallAux pre cap post (s.length + 1) s

/-- The regex class `["\']`. -/
def isQuote (c : Char) : Bool := c == '"' || c == '\''

/-- The regex class `[^"\']`. -/
def nonQuote (c : Char) : Bool := !(c == '"' || c == '\'')

/-- The regex class `[^>]`. -/
def nonGt (c : Char) : Bool := !(c == '>')

/-- The regex class `[^}]`. -/
def nonBraceR (c : Char) : Bool := !(c == '}')

/-- Python regex `\s` (ASCII whitespace classes). -/
def pyWS (c : Char) : Bool :=
  c == ' ' || c == '\t' || c == '\n' || c == '\r' ||
  c == Char.ofNat 0x0B || c == Char.ofNat 0x0C

/-- The regex class `[^"\')\s]`. -/
def fontUrlChar (c : Char) : Bool :=
  !(c == '"' || c == '\'' || c == ')' || pyWS c)

/-- Python `re.findall(r'<script[^>]*src=["\']([^"\']+)["\']', html, re.IGNORECASE)`. -/
def script_sources (html : List Char) : List (List Char) :=
  findall [.lit ("<script".data), .star nonGt, .lit ("src=".data), .one isQuote]
    [.plus nonQuote] [.one isQuote] html

/-- Python `re.findall(r'<link[^>]*href=["\']([^"\']+\.css[^"\']*)["\']', ...)`. -/
def css_links (html : List Char) : List (List Char) :=
  findall [.lit ("<link".data), .star nonGt, .lit ("href=".data), .one isQuote]
    [.plus nonQuote, .lit (".css".data), .star nonQuote] [.one isQuote] html

/-- Python `re.findall(r'<img[^>]*src=["\']([^"\']+)["\']', ...)`. -/
def img_sources (html : List Char) : List (List Char) :=
  findall [.lit ("<img".data), .star nonGt, .lit ("src=".data), .one isQuote]
    [.plus nonQuote] [.one isQuote] html

/-- Python `re.findall(r'<iframe[^>]*src=["\']([^"\']+)["\']', ...)`. -/
def iframe_sources (html : List Char) : List (List Char) :=
  findall [.lit ("<iframe".data), .star nonGt, .lit ("src=".data), .one isQuote]
    [.plus nonQuote] [.one isQuote] html

/-- Python `re.findall(r'@font-face[^}]*url\(["\']?([^"\')\s]+)["\']?\)', ...)`. -/
def font_face_urls (html : List Char) : List (List Char) :=
  findall [.lit ("@font-face".data), .star nonBraceR, .lit ("url(".data),
      .opt isQuote]
    [.plus fontUrlChar] [.opt isQuote, .lit (")".data)] html

/-- Python `re.findall(r'<link[^>]*href=["\']([^"\']*fonts[^"\']*)["\']', ...)`. -/
def font_link_urls (html : List Char) : List (List Char) :=
  findall [.lit ("<link".data), .star nonGt, .lit ("href=".data), .one isQuote]
    [.star nonQuote, .lit ("fonts".data), .star nonQuote] [.one isQuote] html

/-- The font loop iterates `fonts + font_links`. -/
def font_urls (html : List Char) : List (List Char) :=
  font_face_urls html ++ font_link_urls html

/-- The three `api_patterns` findall results, concatenated in pattern
order (for the two-group axios pattern the code takes `match[-1]`, the
URL group, which is the capture here). -/
def api_urls (html : List Char) : List (List Char) :=
  findall [.lit ("fetch(".data), .one isQuote] [.plus nonQuote]
      [.one isQuote] html ++
  findall [.lit ("axios.".data), .alts ["get".data, "post".data],
      .lit ("(".data), .one isQuote] [.plus nonQuote] [.one isQuote] html ++
  findall [.lit ("$.ajax(".data), .one isQuote] [.plus nonQuote]
      [.one isQuote] html

/-! ## Resource Extractor — `analyze_embedded_resources` (src/unnamed/part_004)

```python
def analyze_embedded_resources(html_content: str, base_url: str) -> dict:
    resources = defaultdict(list)
    scripts = re.findall(script_pattern, html_content, re.IGNORECASE)
    for script in scripts:
        full_url = urljoin(base_url, script)
        domain = urlparse(full_url).netloc
        if domain and domain not in urlparse(base_url).netloc:
            resources['external_scripts'].append({'url': full_url, 'domain': domain})
    # ... identically for stylesheets, images, iframes, fonts ...
    for pattern in api_patterns:
        for match in re.findall(pattern, html_content, re.IGNORECASE):
            url = match if isinstance(match, str) else match[-1]
            if url.startswith('http'):
                resources['api_calls'].append({'url': url, 'domain': urlparse(url).netloc})
    ...
```

The per-reference record also carries a constant `'note'` string for
iframes, and the returned dict additionally repeats the six lists under
`resources_by_type` plus a `unique_domains` set and a total count —
all derived data not touched by any claim, omitted here. -/

/-- A `{'url': ..., 'domain': ...}` record. -/
structure Resource where
  url : String
  domain : String
deriving DecidableEq, Repr

/-- The per-reference body of the five filtered extraction loops:
resolve against the base URL, take the netloc, and keep the resource
iff the netloc is nonempty and `domain not in urlparse(base_url).netloc`
(a substring test, not an equality test). -/
def keepExternal (base_url : String) (r : List Char) : Option Resource :=
  if (urlparse (urljoin base_url.data r) []).netloc ≠ [] ∧
      containsSubL (urlparse (urljoin base_url.data r) []).netloc
        (urlparse base_url.data []).netloc = false
  then some ⟨⟨urljoin base_url.data r⟩,
             ⟨(urlparse (urljoin base_url.data r) []).netloc⟩⟩
  else none

/-- One filtered extraction loop (scripts, stylesheets, images,
iframes, fonts are copy-paste identical in the source). -/
def collectExternal (base_url : String) (refs : List (List Char)) :
    List Resource :=
  refs.filterMap (keepExternal base_url)

/-- The per-reference body of the api-call loop: kept iff the captured
URL starts with `"http"` — no hostname comparison at all. -/
def keepApi (r : List Char) : Option Resource :=
  if ("http".data).isPrefixOf r = true
  then some ⟨⟨r⟩, ⟨(urlparse r []).netloc⟩⟩
  else none

/-- The api-call loop. -/
def collectApi (refs : List (List Char)) : List Resource :=
  refs.filterMap keepApi

/-- The six per-kind resource lists of `analyze_embedded_resources`. -/
structure Resources where
  external_scripts : List Resource
  external_stylesheets : List Resource
  external_images : List Resource
  iframes : List Resource
  external_fonts : List Resource
  api_calls : List Resource
deriving DecidableEq, Repr

/-- Python function `analyze_embedded_resources` from
src/unnamed/part_004 lines 257-361. -/
def analyze_embedded_resources (html_content base_url : String) : Resources :=
  ⟨collectExternal base_url (script_sources html_content.data),
   collectExternal base_url (css_links html_content.data),
   collectExternal base_url (img_sources html_content.data),
   collectExternal base_url (iframe_sources html_content.data),
   collectExternal base_url (font_urls html_content.data),
   collectApi (api_urls html_content.data)⟩


/-! ### Claims C6 and C7 -/

theorem length_filterMap_eq_countP {α β : Type} (f : α → Option β)
    (l : List α) :
    (l.filterMap f).length = l.countP (fun a => (f a).isSome) := by
  induction l with
  | nil => rfl
  | cons a t ih =>
    rcases h : f a with _ | b <;>
      simp [List.filterMap_cons, h, List.countP_cons, ih]

theorem keepExternal_some_iff (base : String) (r : List Char) (y : Resource) :
    keepExternal base r = some y ↔
      ((urlparse (urljoin base.data r) []).netloc ≠ [] ∧
       containsSubL (urlparse (urljoin base.data r) []).netloc
         (urlparse base.data []).netloc = false ∧
       y = ⟨⟨urljoin base.data r⟩,
            ⟨(urlparse (urljoin base.data r) []).netloc⟩⟩) := by
  unfold keepExternal
  split
  · next hc =>
    constructor
    · intro h
      injection h with h'
      exact ⟨hc.1, hc.2, h'.symm⟩
    · rintro ⟨-, -, hy⟩
      rw [hy]
  · next hc =>
    constructor
    · intro h
      exact absurd h (by simp)
    · rintro ⟨h1, h2, -⟩
      exact absurd ⟨h1, h2⟩ hc

theorem keepApi_some_iff (r : List Char) (y : Resource) :
    keepApi r = some y ↔
      (("http".data).isPrefixOf r = true ∧
       y = ⟨⟨r⟩, ⟨(urlparse r []).netloc⟩⟩) := by
  unfold keepApi
  split
  · next hc =>
    constructor
    · intro h
      injection h with h'
      exact ⟨hc, h'.symm⟩
    · rintro ⟨-, hy⟩
      rw [hy]
  · next hc =>
    constructor
    · intro h
      exact absurd h (by simp)
    · rintro ⟨h1, -⟩
      exact absurd h1 hc

/-- C6 counterexample: the Resource Extractor's keep test is
`domain not in urlparse(base_url).netloc` — a substring test, not a
hostname-difference test.  A script on the parent domain
`example.com`, whose hostname differs from the base hostname
`www.example.com`, is nevertheless discarded, because `"example.com"`
is a substring of `"www.example.com"`; and an inline API call to the
base site itself (equal hostname) is kept. -/
theorem c6_parent_domain_discarded_counterexample :
    (analyze_embedded_resources
        ("<script src=\"https://example.com/a.js\"></script>")
        ("https://www.example.com")).external_scripts = [] ∧
    script_sources
        ("<script src=\"https://example.com/a.js\"></script>").data
      = [("https://example.com/a.js").data] ∧
    (urlparse (urljoin ("https://www.example.com").data
        (("https://example.com/a.js").data)) []).netloc
      = ("example.com").data ∧
    (urlparse ("https://www.example.com").data []).netloc
      = ("www.example.com").data ∧
    (("example.com").data : List Char) ≠ ("www.example.com").data ∧
    (analyze_embedded_resources
        ("<script>fetch(\"https://www.example.com/api\")</script>")
        ("https://www.example.com")).api_calls
      = [⟨("https://www.example.com/api"), ("www.example.com")⟩] := by
  refine ⟨by decide, by decide, by decide, by decide, by decide, by decide⟩

/-- C6 (amended): for every page markup and base URL, a matched
reference of the five filtered kinds appears in the output iff its
resolved hostname is nonempty and is NOT a substring of the base URL's
hostname — so references whose hostname equals the base hostname are
discarded, but references on a parent domain of the base hostname are
discarded too; and an inline API call is kept iff its URL starts with
`"http"`, with no hostname comparison at all. -/
theorem c6_kept_iff_not_substring (html base : String) (x : Resource) :
    (x ∈ (analyze_embedded_resources html base).external_scripts ↔
      ∃ r ∈ script_sources html.data, keepExternal base r = some x) ∧
    (x ∈ (analyze_embedded_resources html base).external_stylesheets ↔
      ∃ r ∈ css_links html.data, keepExternal base r = some x) ∧
    (x ∈ (analyze_embedded_resources html base).external_images ↔
      ∃ r ∈ img_sources html.data, keepExternal base r = some x) ∧
    (x ∈ (analyze_embedded_resources html base).iframes ↔
      ∃ r ∈ iframe_sources html.data, keepExternal base r = some x) ∧
    (x ∈ (analyze_embedded_resources html base).external_fonts ↔
      ∃ r ∈ font_urls html.data, keepExternal base r = some x) ∧
    (x ∈ (analyze_embedded_resources html base).api_calls ↔
      ∃ r ∈ api_urls html.data, keepApi r = some x) ∧
    (∀ (r : List Char) (y : Resource), keepExternal base r = some y ↔
      ((urlparse (urljoin base.data r) []).netloc ≠ [] ∧
       containsSubL (urlparse (urljoin base.data r) []).netloc
         (urlparse base.data []).netloc = false ∧
       y = ⟨⟨urljoin base.data r⟩,
            ⟨(urlparse (urljoin base.data r) []).netloc⟩⟩)) ∧
    (∀ (r : List Char) (y : Resource), keepApi r = some y ↔
      (("http".data).isPrefixOf r = true ∧
       y = ⟨⟨r⟩, ⟨(urlparse r []).netloc⟩⟩)) :=
  ⟨List.mem_filterMap, List.mem_filterMap, List.mem_filterMap,
   List.mem_filterMap, List.mem_filterMap, List.mem_filterMap,
   keepExternal_some_iff base, keepApi_some_iff⟩

/-- C7 counterexample: no per-page deduplication by (hostname,
referenceKind): two identical script references to the same external
hostname yield two entries in `external_scripts`. -/
theorem c7_no_page_dedup_counterexample :
    (analyze_embedded_resources
        ("<script src=\"https://cdn.ex.com/a.js\"></script><script src=\"https://cdn.ex.com/a.js\"></script>")
        ("https://site.com")).external_scripts
      = [⟨("https://cdn.ex.com/a.js"), ("cdn.ex.com")⟩,
         ⟨("https://cdn.ex.com/a.js"), ("cdn.ex.com")⟩] := by
  decide

/-- C7 (amended): within one page the Resource Extractor performs no
deduplication at all: each category list contains exactly one entry per
matched reference that passes the keep test, in match order — repeated
references to the same (hostname, kind) are all retained. -/
theorem c7_one_entry_per_reference (html base : String) :
    (analyze_embedded_resources html base).external_scripts.length
      = (script_sources html.data).countP
          (fun r => (keepExternal base r).isSome) ∧
    (analyze_embedded_resources html base).external_stylesheets.length
      = (css_links html.data).countP (fun r => (keepExternal base r).isSome) ∧
    (analyze_embedded_resources html base).external_images.length
      = (img_sources html.data).countP (fun r => (keepExternal base r).isSome) ∧
    (analyze_embedded_resources html base).iframes.length
      = (iframe_sources html.data).countP
          (fun r => (keepExternal base r).isSome) ∧
    (analyze_embedded_resources html base).external_fonts.length
      = (font_urls html.data).countP (fun r => (keepExternal base r).isSome) ∧
    (analyze_embedded_resources html base).api_calls.length
      = (api_urls html.data).countP (fun r => (keepApi r).isSome) :=
  ⟨length_filterMap_eq_countP _ _, length_filterMap_eq_countP _ _,
   length_filterMap_eq_countP _ _, length_filterMap_eq_countP _ _,
   length_filterMap_eq_countP _ _, length_filterMap_eq_countP _ _⟩

/-! ## Merge Engine

The Merge Engine lives in the backend implementation (`backend/main.py`),
which is not under src/ — only its planning documents, logs and the
frontend are.  Its algorithm is therefore modelled from §4.4 of the
spec. -/

/-- A canonical vendor record (spec §3 `Vendor`). -/
structure MVendor where
  name : String
  purpose : String
  location : String
  risk : String
  detectionMethod : String
deriving DecidableEq, Repr

/-- A fingerprint-matched service as consumed by the Merge Engine
(spec §3 `DetectedService`, the fields the merge reads). -/
structure MService where
  displayName : String
  category : String
  jurisdiction : String
  riskTier : String
deriving DecidableEq, Repr

/-- Modelled from the spec: name normalization used for vendor-name
comparison (§4.4 step 1: trim, case-fold for comparison only). -/
def normalize_name (s : String) : String := s.trim.toLower

/-- Modelled from the spec: §4.4 step 1 — seed the canonical set from
the oracle's vendors, resolving name collisions (first occurrence
wins). -/
def seed_step (acc : List MVendor) (v : MVendor) : List MVendor :=
  if acc.any (fun w => normalize_name w.name == normalize_name v.name)
  then acc else acc ++ [v]

/-- Modelled from the spec: §4.4 step 2 — mark an existing entry
`"both"` and fill only its `"Unknown"` fields from the registry entry
(field-level fallback, never a record-level overwrite). -/
def fill_unknown (v : MVendor) (s : MService) : MVendor :=
  { v with
    detectionMethod := "both"
    purpose := if v.purpose == "Unknown" then s.category else v.purpose
    location := if v.location == "Unknown" then s.jurisdiction else v.location
    risk := if v.risk == "Unknown" then s.riskTier else v.risk }

/-- Modelled from the spec: §4.4 steps 2-3 — merge one detected service
into the canonical set: update the entry with the same normalized name
if one exists, else append a registry-sourced vendor. -/
def merge_step (acc : List MVendor) (s : MService) : List MVendor :=
  if acc.any (fun w => normalize_name w.name == normalize_name s.displayName)
  then acc.map (fun w =>
    if normalize_name w.name == normalize_name s.displayName
    then fill_unknown w s else w)
  else acc ++
    [⟨s.displayName, s.category, s.jurisdiction, s.riskTier,
      "resource-fingerprint"⟩]

/-- Modelled from the spec: the Merge Engine (§4.4) — oracle vendors
seed the canonical set, then every detected service is merged in. -/
def merge_vendors (oracle : List MVendor) (services : List MService) :
    List MVendor :=
  services.foldl merge_step (oracle.foldl seed_step [])

theorem not_any_name {acc : List MVendor} {key : String}
    (h : ¬ acc.any (fun w => normalize_name w.name == key) = true) :
    ∀ w ∈ acc, normalize_name w.name ≠ key := by
  intro w hw heq
  exact h (List.any_eq_true.mpr ⟨w, hw, by simp [heq]⟩)

/-- The pairwise-distinct-normalized-names invariant of the canonical
vendor set. -/
def DistinctNames (l : List MVendor) : Prop :=
  l.Pairwise (fun a b => normalize_name a.name ≠ normalize_name b.name)

theorem seed_step_preserves (acc : List MVendor) (v : MVendor)
    (h : DistinctNames acc) : DistinctNames (seed_step acc v) := by
  unfold seed_step
  split
  · exact h
  · next hany =>
    refine List.pairwise_append.mpr ⟨h, List.pairwise_singleton _ _, ?_⟩
    intro a ha b hb
    rw [List.mem_singleton.mp hb]
    exact not_any_name hany a ha

theorem merge_step_preserves (acc : List MVendor) (s : MService)
    (h : DistinctNames acc) : DistinctNames (merge_step acc s) := by
  unfold merge_step
  split
  · refine List.Pairwise.map _ ?_ h
    intro a b hab
    have na : (if normalize_name a.name == normalize_name s.displayName
        then fill_unknown a s else a).name = a.name := by
      unfold fill_unknown; split <;> rfl
    have nb : (if normalize_name b.name == normalize_name s.displayName
        then fill_unknown b s else b).name = b.name := by
      unfold fill_unknown; split <;> rfl
    rw [na, nb]
    exact hab
  · next hany =>
    refine List.pairwise_append.mpr ⟨h, List.pairwise_singleton _ _, ?_⟩
    intro a ha b hb
    rw [List.mem_singleton.mp hb]
    exact not_any_name hany a ha

theorem foldl_preserves {α β : Type} (P : α → Prop) (f : α → β → α)
    (hf : ∀ a b, P a → P (f a b)) :
    ∀ (l : List β) (a : α), P a → P (l.foldl f a) := by
  intro l
  induction l with
  | nil => intro a ha; exact ha
  | cons x xs ih => intro a ha; exact ih (f a x) (hf a x ha)

/-- C1: in every merged vendor set produced by the Merge Engine, vendor
names are pairwise distinct under the case-insensitive,
whitespace-trimmed comparison — for every oracle vendor list and every
detected-service list. -/
theorem c1_merged_names_unique (oracle : List MVendor)
    (services : List MService) :
    (merge_vendors oracle services).Pairwise
      (fun a b => normalize_name a.name ≠ normalize_name b.name) := by
  unfold merge_vendors
  refine foldl_preserves DistinctNames merge_step
    (fun a b h => merge_step_preserves a b h) services _ ?_
  exact foldl_preserves DistinctNames seed_step
    (fun a b h => seed_step_preserves a b h) oracle [] List.Pairwise.nil

/-! ## Fingerprint Matcher — `match_known_services` (src/unnamed/part_005)

```python
KNOWN_SERVICES = {
    "google-analytics.com": {...}, ...
}

def match_known_services(domains: list) -> list:
    detected_services = []
    for domain in domains:
        for known_domain, service_info in KNOWN_SERVICES.items():
            if known_domain in domain:
                detected_services.append(service_info)
    return detected_services
```
-/

/-- A known-service record of part_005's `KNOWN_SERVICES` dict. -/
structure ServiceInfo where
  name : String
  location : String
  category : String
  risk : String
  note : Option String := none
deriving DecidableEq, Repr

/-- The `KNOWN_SERVICES` dict of src/unnamed/part_005 lines 412-447, in
insertion order. -/
def KNOWN_SERVICES : List (String × ServiceInfo) :=
  [("google-analytics.com",
    ⟨"Google Analytics", "United States", "Analytics", "High", none⟩),
   ("mixpanel.com", ⟨"Mixpanel", "United States", "Analytics", "High", none⟩),
   ("segment.com", ⟨"Segment", "United States", "Analytics", "High", none⟩),
   ("plausible.io", ⟨"Plausible", "EU (Estonia)", "Analytics", "Low", none⟩),
   ("intercom.io",
    ⟨"Intercom", "United States", "Customer Support", "Critical", none⟩),
   ("zendesk.com", ⟨"Zendesk", "United States", "Customer Support", "High", none⟩),
   ("crisp.chat", ⟨"Crisp", "France", "Customer Support", "Low", none⟩),
   ("stripe.com",
    ⟨"Stripe", "United States", "Payment Processing", "Critical", none⟩),
   ("paypal.com",
    ⟨"PayPal", "United States", "Payment Processing", "Critical", none⟩),
   ("sendgrid.com", ⟨"SendGrid", "United States", "Email Service", "High", none⟩),
   ("mailgun.com", ⟨"Mailgun", "United States", "Email Service", "High", none⟩),
   ("s3.amazonaws.com",
    ⟨"AWS S3", "United States", "Cloud Storage", "Critical", none⟩),
   ("googleapis.com",
    ⟨"Google Cloud Storage", "United States", "Cloud Storage", "Critical", none⟩),
   ("fonts.googleapis.com",
    ⟨"Google Fonts", "United States", "CDN", "Medium",
     some ("Shares IP address with Google")⟩),
   ("fonts.gstatic.com",
    ⟨"Google Fonts CDN", "United States", "CDN", "Medium", none⟩),
   ("api.openai.com", ⟨"OpenAI", "United States", "AI/ML", "Critical", none⟩),
   ("api.anthropic.com",
    ⟨"Anthropic", "United States", "AI/ML", "Critical", none⟩),
   ("sentry.io", ⟨"Sentry", "United States", "Error Tracking", "High", none⟩),
   ("datadoghq.com", ⟨"Datadog", "United States", "Monitoring", "High", none⟩)]

/-- Python function `match_known_services` from src/unnamed/part_005 lines 449-460: the
nested append loop over input domains and registry fragments. -/
def match_known_services (domains : List String) : List ServiceInfo :=
  domains.foldl (fun acc domain =>
    KNOWN_SERVICES.foldl (fun acc2 p =>
      if containsSub p.1 domain then acc2 ++ [p.2] else acc2) acc) []

/-- Python function `detect_known_services` from src/unnamed/part_004 lines 216-233.
Its registry is loaded at process start from `known_services.json`
(category → fragment → info, deployment data, hence a parameter with an
abstract info type standing for the JSON objects); a hit appends the
info spread together with the fragment and the category group, here a
tuple `(domain, category_group, info)`. -/
def detect_known_services {α : Type} (registry : List (String × List (String × α)))
    (html_content : String) : List (String × String × α) :=
  let html_lower := pyToLower html_content
  registry.foldl (fun acc cat =>
    cat.2.foldl (fun acc2 p =>
      if containsSub p.1 html_lower then acc2 ++ [(p.1, cat.1, p.2)] else acc2)
      acc) []

theorem foldl_append_if {α β : Type} (p : α → Bool) (g : α → β)
    (l : List α) (acc : List β) :
    l.foldl (fun acc2 x => if p x then acc2 ++ [g x] else acc2) acc
      = acc ++ (l.filter p).map g := by
  induction l generalizing acc with
  | nil => simp
  | cons x xs ih =>
    by_cases hx : p x = true <;> simp [List.foldl_cons, hx, ih]

theorem match_known_services_eq (domains : List String) :
    match_known_services domains = domains.flatMap (fun d =>
      (KNOWN_SERVICES.filter (fun p => containsSub p.1 d)).map (fun p => p.2)) := by
  unfold match_known_services
  suffices h : ∀ (acc : List ServiceInfo),
      domains.foldl (fun acc domain =>
        KNOWN_SERVICES.foldl (fun acc2 p =>
          if containsSub p.1 domain then acc2 ++ [p.2] else acc2) acc) acc
        = acc ++ domains.flatMap (fun d =>
            (KNOWN_SERVICES.filter (fun p => containsSub p.1 d)).map
              (fun p => p.2)) by
    simpa using h []
  induction domains with
  | nil => simp
  | cons d ds ih =>
    intro acc
    simp only [List.foldl_cons, List.flatMap_cons]
    rw [foldl_append_if, ih, List.append_assoc]

/-- C5 counterexample: the matcher is not deduplicated by matched
display name.  Two input hostnames both matching the registry fragment
`"stripe.com"` yield two `"Stripe"` records, and a single hostname
matching two registry fragments (`"googleapis.com"` and
`"fonts.googleapis.com"`) yields two records at once. -/
theorem c5_no_dedup_counterexample :
    (match_known_services ["stripe.com", "js.stripe.com"]).map
        ServiceInfo.name = ["Stripe", "Stripe"] ∧
    (match_known_services ["fonts.googleapis.com"]).map ServiceInfo.name
      = ["Google Cloud Storage", "Google Fonts"] := by
  refine ⟨by decide, by decide⟩

/-- C5 (amended): the Fingerprint Matcher performs no deduplication: it
emits, in input order, one `DetectedService` record per (input domain,
matching registry fragment) pair — so a registry service whose fragment
matches n input hostnames contributes n records, not one.  The part_004
variant `detect_known_services` likewise appends one record per registry
entry whose fragment occurs in the (lower-cased) page markup. -/
theorem c5_matcher_appends_per_match (domains : List String)
    {α : Type} (registry : List (String × List (String × α))) (html : String) :
    match_known_services domains = domains.flatMap (fun d =>
      (KNOWN_SERVICES.filter (fun p => containsSub p.1 d)).map (fun p => p.2)) ∧
    (match_known_services domains).length = (domains.map (fun d =>
      (KNOWN_SERVICES.filter (fun p => containsSub p.1 d)).length)).sum ∧
    detect_known_services registry html = registry.flatMap (fun cat =>
      (cat.2.filter (fun p => containsSub p.1 (pyToLower html))).map
        (fun p => (p.1, cat.1, p.2))) := by
  refine ⟨match_known_services_eq domains, ?_, ?_⟩
  · rw [match_known_services_eq, List.length_flatMap]
    congr 1
    exact List.map_congr_left (fun d _ => by simp)
  · unfold detect_known_services
    suffices h : ∀ (acc : List (String × String × α)),
        registry.foldl (fun acc cat =>
          cat.2.foldl (fun acc2 p =>
            if containsSub p.1 (pyToLower html) then acc2 ++ [(p.1, cat.1, p.2)]
            else acc2) acc) acc
          = acc ++ registry.flatMap (fun cat =>
              (cat.2.filter (fun p => containsSub p.1 (pyToLower html))).map
                (fun p => (p.1, cat.1, p.2))) by
      simpa using h []
    induction registry with
    | nil => simp
    | cons c cs ih =>
      intro acc
      simp only [List.foldl_cons, List.flatMap_cons]
      rw [foldl_append_if, ih, List.append_assoc]

/-! ## URL normalization — `normalizeUrl` (src/unnamed/part_000, JS)

```javascript
export function normalizeUrl(input) {
  if (!input || typeof input !== 'string') { return input }
  let url = input.trim()
  url = url.replace(/\/+$/, '')
  if (url.match(/^https?:\/\//i)) {
    if (url.match(/^http:\/\//i)) { url = url.replace(/^http:\/\//i, 'https://') }
    return url
  }
  if (url.startsWith('//')) { return 'https:' + url }
  const domainPattern = /^([a-zA-Z0-9]([a-zA-Z0-9-]{0,61}[a-zA-Z0-9])?\.)+[a-zA-Z]{2,}(\/.*)?$/
  const simpleDomainPattern = /^[a-zA-Z0-9][a-zA-Z0-9-]*[a-zA-Z0-9]*\.[a-zA-Z]{2,}(\/.*)?$/
  const localhostPattern = /^(localhost|127\.0\.0\.1|0\.0\.0\.0)(:\d+)?(\/.*)?$/
  const ipPattern = /^\d{1,3}\.\d{1,3}\.\d{1,3}\.\d{1,3}(:\d+)?(\/.*)?$/
  if (domainPattern.test(url) || simpleDomainPattern.test(url) ||
      localhostPattern.test(url) || ipPattern.test(url)) {
    return 'https://' + url
  }
  return url
}
```

The anchored regexes are embedded as structural matchers: since the
label and TLD character classes exclude `'.'` and `'/'`, a string is in
each regex's language iff its slash-split and dot-split segments satisfy
the per-segment conditions — which is what the matchers below check.
-/

/-- JavaScript `String.prototype.trim` whitespace: the ECMA WhiteSpace
and LineTerminator code points (space, tab, LF, VT, FF, CR, NBSP, BOM,
LS, PS; the remaining rare Zs code points are omitted — nothing proved
here touches them). -/
def jsWS (c : Char) : Bool :=
  c == ' ' || c == '\t' || c == '\n' || c == '\r' ||
  c == Char.ofNat 0x0B || c == Char.ofNat 0x0C ||
  c == Char.ofNat 0xA0 || c == Char.ofNat 0xFEFF ||
  c == Char.ofNat 0x2028 || c == Char.ofNat 0x2029

/-- JS `input.trim()` on the character list. -/
def trimL (l : List Char) : List Char :=
  List.rdropWhile jsWS (List.dropWhile jsWS l)

/-- JS `url.replace(/\/+$/, '')` — drop all trailing slashes. -/
def stripSlashL (l : List Char) : List Char :=
  List.rdropWhile (fun c => c == '/') l

/-- JS `s.trim()`. -/
def jsTrim (s : String) : String := ⟨trimL s.data⟩

/-- JS `s.replace(/\/+$/, '')`. -/
def stripTrailingSlashes (s : String) : String := ⟨stripSlashL s.data⟩

/-- Case-insensitive prefix test, the meaning of an anchored
case-insensitive literal regex test such as `/^http:\/\//i` (ASCII
folding, which is what JS applies to ASCII pattern characters). -/
def preCI : List Char → List Char → Bool
  | [], _ => true
  | _ :: _, [] => false
  | p :: ps, c :: cs => (Char.toLower c == Char.toLower p) && preCI ps cs

/-- JS `url.match(/^https?:\/\//i)` as a Bool. -/
def protoL (l : List Char) : Bool :=
  preCI ("http://".data) l || preCI ("https://".data) l

/-- JS `url.match(/^http:\/\//i)` as a Bool. -/
def httpL (l : List Char) : Bool := preCI ("http://".data) l

/-- The regex class `[a-zA-Z0-9]`. -/
def isAlnum (c : Char) : Bool := c.isAlpha || c.isDigit

/-- The regex class `[a-zA-Z0-9-]`. -/
def isLabelChar (c : Char) : Bool := isAlnum c || c == '-'

/-- The JS regex `.` (without the s flag): any char except the four
line terminators. -/
def isDotChar (c : Char) : Bool :=
  !(c == '\n' || c == '\r' || c == Char.ofNat 0x2028 || c == Char.ofNat 0x2029)

/-- Membership in the language of
`[a-zA-Z0-9]([a-zA-Z0-9-]{0,61}[a-zA-Z0-9])?`: one alphanumeric char,
or 2–63 chars whose first and last are alphanumeric and whose interior
chars are alphanumeric-or-hyphen. -/
def validLabel (l : List Char) : Bool :=
  match l with
  | [] => false
  | c :: rest =>
    match rest.reverse with
    | [] => isAlnum c
    | d :: midRev =>
      isAlnum c && isAlnum d && midRev.all isLabelChar &&
        decide (midRev.length ≤ 61)

/-- Membership in the language of `[a-zA-Z]{2,}`. -/
def validTld (l : List Char) : Bool :=
  decide (2 ≤ l.length) && l.all Char.isAlpha

/-- Membership in the language of `(\/.*)?` matched to the end: empty,
or a slash followed by non-line-terminator chars. -/
def pathOk : List Char → Bool
  | [] => true
  | c :: rest => c == '/' && rest.all isDotChar

/-- Split at the first `'/'` (the host/path boundary: every host
character class excludes the slash). -/
def breakSlash (l : List Char) : List Char × List Char :=
  (l.takeWhile (fun c => !(c == '/')), l.dropWhile (fun c => !(c == '/')))

/-- The `domainPattern` test
`/^([a-zA-Z0-9]([a-zA-Z0-9-]{0,61}[a-zA-Z0-9])?\.)+[a-zA-Z]{2,}(\/.*)?$/`:
the host part (before the first slash) dot-splits into at least two
segments, all leading segments are labels, the last is a TLD, and the
remainder is an admissible path. -/
def domainTest (l : List Char) : Bool :=
  let hp := breakSlash l
  let segs := hp.1.splitOn '.'
  decide (2 ≤ segs.length) && segs.dropLast.all validLabel &&
    validTld (segs.getLastD []) && pathOk hp.2

/-- Membership in the language of `[a-zA-Z0-9][a-zA-Z0-9-]*[a-zA-Z0-9]*`:
first char alphanumeric, the rest alphanumeric-or-hyphen (the trailing
`[a-zA-Z0-9]*` adds nothing to the language). -/
def simpleLabel (l : List Char) : Bool :=
  match l with
  | [] => false
  | c :: rest => isAlnum c && rest.all isLabelChar

/-- The `simpleDomainPattern` test
`/^[a-zA-Z0-9][a-zA-Z0-9-]*[a-zA-Z0-9]*\.[a-zA-Z]{2,}(\/.*)?$/`:
exactly two dot-segments before the path. -/
def simpleDomainTest (l : List Char) : Bool :=
  let hp := breakSlash l
  match hp.1.splitOn '.' with
  | [a, b] => simpleLabel a && validTld b && pathOk hp.2
  | _ => false

/-- Membership in the language of `(:\d+)?(\/.*)?` matched to the end. -/
def portPathOpt (l : List Char) : Bool :=
  match l with
  | ':' :: rest =>
    !(rest.takeWhile Char.isDigit == []) && pathOk (rest.dropWhile Char.isDigit)
  | _ => pathOk l

/-- A literal alternative followed by the optional port and path. -/
def litThen (lit : List Char) (l : List Char) : Bool :=
  lit.isPrefixOf l && portPathOpt (l.drop lit.length)

/-- The `localhostPattern` test
`/^(localhost|127\.0\.0\.1|0\.0\.0\.0)(:\d+)?(\/.*)?$/` (no alternative
is a prefix of another, so the alternation is an exclusive choice). -/
def localhostTest (l : List Char) : Bool :=
  litThen ("localhost".data) l || litThen ("127.0.0.1".data) l ||
    litThen ("0.0.0.0".data) l

/-- One `\d{1,3}\.` group: 1–3 digits (maximal, since a dot follows)
then the literal dot; returns the remainder. -/
def digitGroup (l : List Char) : Option (List Char) :=
  let ds := l.takeWhile Char.isDigit
  let rest := l.dropWhile Char.isDigit
  if 1 ≤ ds.length && ds.length ≤ 3 then
    match rest with
    | '.' :: r => some r
    | _ => none
  else none

/-- The `ipPattern` test
`/^\d{1,3}\.\d{1,3}\.\d{1,3}\.\d{1,3}(:\d+)?(\/.*)?$/`. -/
def ipTest (l : List Char) : Bool :=
  match digitGroup l with
  | none => false
  | some r1 =>
    match digitGroup r1 with
    | none => false
    | some r2 =>
      match digitGroup r2 with
      | none => false
      | some r3 =>
        let ds := r3.takeWhile Char.isDigit
        decide (1 ≤ ds.length) && decide (ds.length ≤ 3) &&
          portPathOpt (r3.dropWhile Char.isDigit)

/-- The four-way disjunction of part_000's domain/IP pattern tests. -/
def bareTests (l : List Char) : Bool :=
  domainTest l || simpleDomainTest l || localhostTest l || ipTest l

/-- The branch cascade of part_000's `normalizeUrl` after the
trim/strip preprocessing (the function body from the protocol test
on). -/
def normalize0Go (url : List Char) : List Char :=
  if protoL url then
    if httpL url then "https://".data ++ url.drop 7 else url
  else if ("//".data).isPrefixOf url then "https:".data ++ url
  else if bareTests url then "https://".data ++ url
  else url

/-- JavaScript function `normalizeUrl` of src/unnamed/part_000 lines
10-56, on the character list (`!input` is the empty-string test; the
`typeof` guard is vacuous for string inputs). -/
def normalize0L (input : List Char) : List Char :=
  if input = [] then input
  else normalize0Go (stripSlashL (trimL input))

namespace Part000

/-- JavaScript function `normalizeUrl` of src/unnamed/part_000. -/
def normalizeUrl (input : String) : String := ⟨normalize0L input.data⟩

end Part000

/-! ## URL normalization — `normalizeUrl` (src/unnamed/part_001, Hero component)

```javascript
function normalizeUrl(input) {
  if (!input || !input.trim()) { return input }
  let url = input.trim()
  if (/^https?:\/\//i.test(url)) { return url }
  if (url.startsWith('//')) { return `https:${url}` }
  if (/^[a-zA-Z0-9]([a-zA-Z0-9-]{0,61}[a-zA-Z0-9])?(\.[a-zA-Z0-9]([a-zA-Z0-9-]{0,61}[a-zA-Z0-9])?)*\.[a-zA-Z]{2,}/.test(url)) {
    return `https://${url}`
  }
  if (/^[a-zA-Z0-9]([a-zA-Z0-9-]{0,61}[a-zA-Z0-9])?$/.test(url)) { return `https://${url}` }
  if (url.startsWith('/')) { return url }
  return `https://${url}`
}
```
-/

/-- Full match of `[label](\.[label])*\.[a-zA-Z]{2,}` (both ends):
at least two dot-segments, leading ones labels, last one a TLD. -/
def fullDomain1 (l : List Char) : Bool :=
  let segs := l.splitOn '.'
  decide (2 ≤ segs.length) && segs.dropLast.all validLabel &&
    validTld (segs.getLastD [])

/-- The Hero component's domain regex is anchored only at the start, so
`.test(url)` asks whether SOME prefix of `url` fully matches — the
prefix ends at an arbitrary cut position `k`. -/
def domainPrefixTest (l : List Char) : Bool :=
  (List.range (l.length + 1)).any (fun k => fullDomain1 (l.take k))

/-- The branch cascade of part_001's `normalizeUrl` after trimming. -/
def normalize1Go (url : List Char) : List Char :=
  if protoL url then url
  else if ("//".data).isPrefixOf url then "https:".data ++ url
  else if domainPrefixTest url then "https://".data ++ url
  else if validLabel url then "https://".data ++ url
  else if ("/".data).isPrefixOf url then url
  else "https://".data ++ url

/-- JavaScript function `normalizeUrl` of src/unnamed/part_001 lines
8-44 (the Hero component's local copy), on the character list. -/
def normalize1L (input : List Char) : List Char :=
  if input = [] ∨ trimL input = [] then input
  else normalize1Go (trimL input)

namespace Hero

/-- JavaScript function `normalizeUrl` of src/unnamed/part_001 (the
Hero component's local copy, applied on form submit). -/
def normalizeUrl (input : String) : String := ⟨normalize1L input.data⟩

end Hero

/-! ### Supporting lemmas about the string primitives -/

theorem preCI_append (p m : List Char) : preCI p (p ++ m) = true := by
  induction p with
  | nil => rfl
  | cons c ps ih => simp [preCI, ih]

theorem preCI_le_length (p : List Char) :
    ∀ l : List Char, preCI p l = true → p.length ≤ l.length := by
  induction p with
  | nil => intro l _; simp
  | cons c ps ih =>
    intro l h
    cases l with
    | nil => exact absurd h (by simp [preCI])
    | cons d ds =>
      simp only [preCI, Bool.and_eq_true] at h
      simpa using ih ds h.2

theorem protoL_https_append (m : List Char) :
    protoL ("https://".data ++ m) = true := by
  unfold protoL
  rw [preCI_append]
  simp

theorem httpL_https_append (m : List Char) :
    httpL ("https://".data ++ m) = false := rfl

theorem protoL_of_slash2 {url : List Char}
    (h : ("//".data).isPrefixOf url = true) : protoL url = false := by
  cases url with
  | nil => exact absurd h (by decide)
  | cons c rest =>
    have hc : c = '/' := by
      rw [show ("//".data) = ['/', '/'] from rfl] at h
      simp [List.isPrefixOf] at h
      exact h.1.symm
    subst hc
    rfl

theorem toLower_slash {c : Char} (h : c.toLower = '/') : c = '/' := by
  simp only [Char.toLower] at h
  by_cases hr : c.toNat ≥ 65 ∧ c.toNat ≤ 90
  · rw [if_pos hr] at h
    obtain ⟨h1, h2⟩ := hr
    exfalso
    set n := c.toNat with hn
    interval_cases n <;> exact absurd h (by decide)
  · rwa [if_neg hr] at h

theorem head?_rdropWhile (p : Char → Bool) (l : List Char) {c : Char}
    (h : (List.rdropWhile p l).head? = some c) : l.head? = some c := by
  obtain ⟨t, ht⟩ := List.rdropWhile_prefix p l
  rw [← ht, List.head?_append_of_ne_nil]
  · exact h
  · intro hn
    rw [hn] at h
    simp at h

theorem getLast?_rdropWhile_not (p : Char → Bool) (l : List Char) {c : Char}
    (h : (List.rdropWhile p l).getLast? = some c) : p c = false := by
  have hne : List.rdropWhile p l ≠ [] := by
    intro hn; rw [hn] at h; simp at h
  have hlast := List.rdropWhile_last_not p l hne
  rw [List.getLast?_eq_getLast _ hne] at h
  injection h with h'
  rw [h'] at hlast
  simp only [Bool.not_eq_true] at hlast
  exact hlast

theorem trimL_head_not_ws (l : List Char) {c : Char}
    (h : (trimL l).head? = some c) : jsWS c = false := by
  unfold trimL at h
  have h2 := head?_rdropWhile jsWS (List.dropWhile jsWS l) h
  have h3 := List.head?_dropWhile_not jsWS l
  rw [h2] at h3
  exact h3

theorem trimL_eq_self (l : List Char)
    (hhead : ∀ c, l.head? = some c → jsWS c = false)
    (hlast : ∀ c, l.getLast? = some c → jsWS c = false) : trimL l = l := by
  unfold trimL
  have h1 : List.dropWhile jsWS l = l := by
    cases l with
    | nil => rfl
    | cons a t =>
      rw [List.dropWhile_cons, if_neg]
      rw [hhead a rfl]
      simp
  rw [h1]
  apply List.rdropWhile_eq_self_iff.mpr
  intro hl
  rw [hlast (l.getLast hl) (List.getLast?_eq_getLast l hl)]
  simp

theorem stripSlashL_eq_self (l : List Char)
    (hlast : ∀ c, l.getLast? = some c → (c == '/') = false) :
    stripSlashL l = l := by
  apply List.rdropWhile_eq_self_iff.mpr
  intro hl
  rw [hlast (l.getLast hl) (List.getLast?_eq_getLast l hl)]
  simp

theorem stripSlashL_idem (l : List Char) :
    stripSlashL (stripSlashL l) = stripSlashL l :=
  List.rdropWhile_idempotent _ l

theorem getLast?_append_of_ne_nil (p m : List Char) {c : Char}
    (h : m.getLast? = some c) : (p ++ m).getLast? = some c := by
  rw [List.getLast?_append, h]
  rfl

theorem getLast?_drop_eq (n : ℕ) (l : List Char)
    (hne : l.drop n ≠ []) : (l.drop n).getLast? = l.getLast? := by
  conv_rhs => rw [← List.take_append_drop n l]
  rw [List.getLast?_append]
  rcases h : (l.drop n).getLast? with _ | c
  · exact absurd (List.getLast?_eq_none_iff.mp h) hne
  · rfl

theorem isPre_append (p m : List Char) : p.isPrefixOf (p ++ m) = true := by
  induction p with
  | nil => simp [List.isPrefixOf]
  | cons c ps ih => simp [List.isPrefixOf, ih]

theorem slash2_shape {t : List Char}
    (h : ("//".data).isPrefixOf t = true) : ∃ rest, t = '/' :: '/' :: rest := by
  rcases t with _ | ⟨c1, _ | ⟨c2, rest⟩⟩
  · exact absurd h (by decide)
  · rw [show ("//".data) = ['/', '/'] from rfl] at h
    simp [List.isPrefixOf] at h
  · rw [show ("//".data) = ['/', '/'] from rfl] at h
    simp [List.isPrefixOf] at h
    obtain ⟨h1, h2⟩ := h
    subst h1
    subst h2
    exact ⟨rest, rfl⟩

theorem normalize0L_of_ne {l : List Char} (h : l ≠ []) :
    normalize0L l = normalize0Go (stripSlashL (trimL l)) := by
  unfold normalize0L
  rw [if_neg h]

/-- C8: part_000's and part_001's `normalizeUrl` both upgrade
protocol-relative inputs (after the trim / trailing-slash
preprocessing each performs) to `"https:" ++ input`, and
bare-domain inputs (those passing the respective domain patterns,
having no protocol and not starting with `"//"`) to
`"https://" ++ input` — in every case the address handed to the fetch
step starts with `"https://"` followed by the original host and path:
never relative, never an insecure scheme. -/
theorem c8_normalize_secures (s : String) :
    (("//".data).isPrefixOf (stripSlashL (trimL s.data)) = true →
      Part000.normalizeUrl s = ⟨"https:".data ++ stripSlashL (trimL s.data)⟩ ∧
      ("https://".data).isPrefixOf (Part000.normalizeUrl s).data = true) ∧
    (protoL (stripSlashL (trimL s.data)) = false →
      ("//".data).isPrefixOf (stripSlashL (trimL s.data)) = false →
      bareTests (stripSlashL (trimL s.data)) = true →
      Part000.normalizeUrl s = ⟨"https://".data ++ stripSlashL (trimL s.data)⟩ ∧
      ("https://".data).isPrefixOf (Part000.normalizeUrl s).data = true) ∧
    (("//".data).isPrefixOf (trimL s.data) = true →
      Hero.normalizeUrl s = ⟨"https:".data ++ trimL s.data⟩ ∧
      ("https://".data).isPrefixOf (Hero.normalizeUrl s).data = true) ∧
    (protoL (trimL s.data) = false →
      ("//".data).isPrefixOf (trimL s.data) = false →
      domainPrefixTest (trimL s.data) = true →
      Hero.normalizeUrl s = ⟨"https://".data ++ trimL s.data⟩ ∧
      ("https://".data).isPrefixOf (Hero.normalizeUrl s).data = true) := by
  refine ⟨?_, ?_, ?_, ?_⟩
  · intro h
    have hs : s.data ≠ [] := by
      intro he
      rw [he] at h
      exact absurd h (by decide)
    have e : Part000.normalizeUrl s
        = ⟨normalize0Go (stripSlashL (trimL s.data))⟩ := by
      unfold Part000.normalizeUrl
      rw [normalize0L_of_ne hs]
    have hgo : normalize0Go (stripSlashL (trimL s.data))
        = "https:".data ++ stripSlashL (trimL s.data) := by
      unfold normalize0Go
      rw [if_neg (by rw [protoL_of_slash2 h]; exact Bool.false_ne_true),
          if_pos h]
    obtain ⟨rest, hrest⟩ := slash2_shape h
    refine ⟨by rw [e, hgo], ?_⟩
    rw [e, hgo, hrest]
    show ("https://".data).isPrefixOf ("https:".data ++ ('/' :: '/' :: rest))
      = true
    rw [show "https:".data ++ ('/' :: '/' :: rest)
        = "https://".data ++ rest from rfl]
    exact isPre_append _ _
  · intro hp hsl hb
    have hs : s.data ≠ [] := by
      intro he
      rw [he] at hb
      exact absurd hb (by decide)
    have e : Part000.normalizeUrl s
        = ⟨normalize0Go (stripSlashL (trimL s.data))⟩ := by
      unfold Part000.normalizeUrl
      rw [normalize0L_of_ne hs]
    have hgo : normalize0Go (stripSlashL (trimL s.data))
        = "https://".data ++ stripSlashL (trimL s.data) := by
      unfold normalize0Go
      rw [if_neg (by rw [hp]; exact Bool.false_ne_true),
          if_neg (by rw [hsl]; exact Bool.false_ne_true), if_pos hb]
    exact ⟨by rw [e, hgo], by rw [e, hgo]; exact isPre_append _ _⟩
  · intro h
    have ht : trimL s.data ≠ [] := by
      intro he
      rw [he] at h
      exact absurd h (by decide)
    have hs : ¬ (s.data = [] ∨ trimL s.data = []) := by
      rintro (he | he)
      · exact ht (by rw [he]; rfl)
      · exact ht he
    have e : Hero.normalizeUrl s = ⟨normalize1Go (trimL s.data)⟩ := by
      unfold Hero.normalizeUrl normalize1L
      rw [if_neg hs]
    have hgo : normalize1Go (trimL s.data)
        = "https:".data ++ trimL s.data := by
      unfold normalize1Go
      rw [if_neg (by rw [protoL_of_slash2 h]; exact Bool.false_ne_true),
          if_pos h]
    obtain ⟨rest, hrest⟩ := slash2_shape h
    refine ⟨by rw [e, hgo], ?_⟩
    rw [e, hgo, hrest]
    show ("https://".data).isPrefixOf ("https:".data ++ ('/' :: '/' :: rest))
      = true
    rw [show "https:".data ++ ('/' :: '/' :: rest)
        = "https://".data ++ rest from rfl]
    exact isPre_append _ _
  · intro hp hsl hd
    have ht : trimL s.data ≠ [] := by
      intro he
      rw [he] at hd
      exact absurd hd (by decide)
    have hs : ¬ (s.data = [] ∨ trimL s.data = []) := by
      rintro (he | he)
      · exact ht (by rw [he]; rfl)
      · exact ht he
    have e : Hero.normalizeUrl s = ⟨normalize1Go (trimL s.data)⟩ := by
      unfold Hero.normalizeUrl normalize1L
      rw [if_neg hs]
    have hgo : normalize1Go (trimL s.data)
        = "https://".data ++ trimL s.data := by
      unfold normalize1Go
      rw [if_neg (by rw [hp]; exact Bool.false_ne_true),
          if_neg (by rw [hsl]; exact Bool.false_ne_true), if_pos hd]
    exact ⟨by rw [e, hgo], by rw [e, hgo]; exact isPre_append _ _⟩

/-- C8 witness: the four branches instantiated at concrete
protocol-relative and bare-domain inputs. -/
theorem c8_normalize_secures_witness :
    Part000.normalizeUrl ("//cdn.example.com/lib.js")
      = ("https://cdn.example.com/lib.js") ∧
    Part000.normalizeUrl ("example.com") = ("https://example.com") ∧
    Hero.normalizeUrl ("//cdn.example.com/lib.js")
      = ("https://cdn.example.com/lib.js") ∧
    Hero.normalizeUrl ("example.com/path") = ("https://example.com/path") := by
  refine ⟨?_, ?_, ?_, ?_⟩
  · have h := (c8_normalize_secures ("//cdn.example.com/lib.js")).1 (by decide)
    rw [h.1]
    decide
  · have h := (c8_normalize_secures ("example.com")).2.1
      (by decide) (by decide) (by decide)
    rw [h.1]
    decide
  · have h := (c8_normalize_secures ("//cdn.example.com/lib.js")).2.2.1
      (by decide)
    rw [h.1]
    decide
  · have h := (c8_normalize_secures ("example.com/path")).2.2.2
      (by decide) (by decide) (by decide)
    rw [h.1]
    decide

/-- C9 counterexample: the two submit-path `normalizeUrl`
implementations are not extensionally equal — on `"http://x.com"`,
part_000 upgrades the scheme to https while the Hero component's copy
returns the input unchanged. -/
theorem c9_not_extensionally_equal :
    Part000.normalizeUrl ("http://x.com") ≠ Hero.normalizeUrl ("http://x.com") ∧
    Part000.normalizeUrl ("http://x.com") = ("https://x.com") ∧
    Hero.normalizeUrl ("http://x.com") = ("http://x.com") := by
  refine ⟨by decide, by decide, by decide⟩

/-- C9 (amended): the two implementations differ in general (part_000
upgrades `http://` to `https://` and strips trailing slashes, the Hero
copy does neither), but they agree on every input that is already
trimmed, has no trailing slash, and carries an `https://`-style scheme
(a case-insensitive `https?://` prefix that is not `http://`): both
return such an input unchanged. -/
theorem c9_agree_on_clean_https (s : String)
    (h1 : jsTrim s = s) (h2 : stripTrailingSlashes s = s)
    (h3 : protoL s.data = true) (h4 : httpL s.data = false) :
    Part000.normalizeUrl s = Hero.normalizeUrl s := by
  have hne : s.data ≠ [] := by
    intro he
    rw [he] at h3
    exact absurd h3 (by decide)
  have htrim : trimL s.data = s.data := congrArg String.data h1
  have hstrip : stripSlashL s.data = s.data := by
    have := congrArg String.data h2
    simpa [stripTrailingSlashes] using this
  have e0 : Part000.normalizeUrl s = ⟨s.data⟩ := by
    unfold Part000.normalizeUrl
    rw [normalize0L_of_ne hne, htrim, hstrip]
    unfold normalize0Go
    rw [if_pos h3, if_neg (by rw [h4]; exact Bool.false_ne_true)]
  have e1 : Hero.normalizeUrl s = ⟨s.data⟩ := by
    unfold Hero.normalizeUrl normalize1L
    rw [if_neg (by rintro (he | he); exact hne he; exact hne (htrim ▸ he))]
    rw [htrim]
    unfold normalize1Go
    rw [if_pos h3]
  rw [e0, e1]

/-- C9 amended-theorem witness: agreement at a concrete clean https
URL. -/
theorem c9_agree_on_clean_https_witness :
    Part000.normalizeUrl ("https://example.com")
      = Hero.normalizeUrl ("https://example.com") :=
  c9_agree_on_clean_https _ (by decide) (by decide) (by decide) (by decide)

/-! ### Idempotence of part_000's normalizeUrl (claim C10) -/

/-- Whether a character list ends in a JS-whitespace character. -/
def endsInWS (l : List Char) : Bool :=
  match l.getLast? with
  | some c => jsWS c
  | none => false

theorem http_drop7_ne {t : List Char} (h : httpL t = true)
    (hsl : ∀ c, t.getLast? = some c → (c == '/') = false) :
    t.drop 7 ≠ [] := by
  unfold httpL at h
  rcases t with _ | ⟨c1, _ | ⟨c2, _ | ⟨c3, _ | ⟨c4, _ | ⟨c5, _ | ⟨c6, _ |
    ⟨c7, rest⟩⟩⟩⟩⟩⟩⟩
  · exact absurd h (by simp [preCI])
  · exact absurd h (by simp [preCI])
  · exact absurd h (by simp [preCI])
  · exact absurd h (by simp [preCI])
  · exact absurd h (by simp [preCI])
  · exact absurd h (by simp [preCI])
  · exact absurd h (by simp [preCI])
  simp only [preCI, Bool.and_eq_true, beq_iff_eq] at h
  intro hd
  have hrest : rest = [] := by simpa using hd
  subst hrest
  have hlast : (c1 :: c2 :: c3 :: c4 :: c5 :: c6 :: c7 :: ([] : List Char)).getLast?
      = some c7 := rfl
  have hne := hsl c7 hlast
  have h7 : c7.toLower = '/' := by
    have h' := h.2.2.2.2.2.2.1
    rwa [show Char.toLower '/' = '/' from rfl] at h'
  rw [toLower_slash h7] at hne
  exact absurd hne (by decide)

theorem normalize0L_idem (l : List Char)
    (h : endsInWS (stripSlashL (trimL l)) = false) :
    normalize0L (normalize0L l) = normalize0L l := by
  by_cases hl : l = []
  · subst hl
    rfl
  · have hlastWS : ∀ c, (stripSlashL (trimL l)).getLast? = some c →
        jsWS c = false := by
      intro c hc
      unfold endsInWS at h
      rw [hc] at h
      exact h
    have hlastSl : ∀ c, (stripSlashL (trimL l)).getLast? = some c →
        (c == '/') = false := by
      intro c hc
      exact getLast?_rdropWhile_not (fun x => x == '/') (trimL l) hc
    have hheadWS : ∀ c, (stripSlashL (trimL l)).head? = some c →
        jsWS c = false := by
      intro c hc
      exact trimL_head_not_ws l (head?_rdropWhile _ _ hc)
    have htrim_t : trimL (stripSlashL (trimL l)) = stripSlashL (trimL l) :=
      trimL_eq_self _ hheadWS hlastWS
    have hstrip_t : stripSlashL (stripSlashL (trimL l)) = stripSlashL (trimL l) :=
      stripSlashL_idem _
    rw [normalize0L_of_ne hl]
    -- a generic finisher for the three "https://" ++ m result shapes
    have hfix : ∀ m : List Char, m ≠ [] →
        ("https://".data ++ m).getLast? = (stripSlashL (trimL l)).getLast? →
        normalize0L ("https://".data ++ m) = "https://".data ++ m := by
      intro m hmne he
      have hrne : "https://".data ++ m ≠ [] := by simp
      rw [normalize0L_of_ne hrne]
      have htr : trimL ("https://".data ++ m) = "https://".data ++ m := by
        refine trimL_eq_self _ ?_ ?_
        · intro c hc
          rw [show ("https://".data ++ m).head? = some 'h' from rfl] at hc
          injection hc with hc'
          rw [← hc']
          rfl
        · intro c hc
          exact hlastWS c (he ▸ hc)
      have hstr : stripSlashL ("https://".data ++ m) = "https://".data ++ m := by
        refine stripSlashL_eq_self _ ?_
        intro c hc
        exact hlastSl c (he ▸ hc)
      rw [htr, hstr]
      unfold normalize0Go
      rw [if_pos (protoL_https_append m),
          if_neg (by rw [httpL_https_append]; exact Bool.false_ne_true)]
    by_cases hp : protoL (stripSlashL (trimL l)) = true
    · by_cases hh : httpL (stripSlashL (trimL l)) = true
      · have hgo : normalize0Go (stripSlashL (trimL l))
            = "https://".data ++ (stripSlashL (trimL l)).drop 7 := by
          unfold normalize0Go
          rw [if_pos hp, if_pos hh]
        rw [hgo]
        have hd7 : (stripSlashL (trimL l)).drop 7 ≠ [] := http_drop7_ne hh hlastSl
        refine hfix _ hd7 ?_
        rcases hgl : ((stripSlashL (trimL l)).drop 7).getLast? with _ | c
        · exact absurd (List.getLast?_eq_none_iff.mp hgl) hd7
        · exact (getLast?_append_of_ne_nil _ _ hgl).trans
            (hgl.symm.trans (getLast?_drop_eq 7 _ hd7))
      · have hgo : normalize0Go (stripSlashL (trimL l)) = stripSlashL (trimL l) := by
          unfold normalize0Go
          rw [if_pos hp, if_neg hh]
        rw [hgo]
        have htne : stripSlashL (trimL l) ≠ [] := by
          intro he
          rw [he] at hp
          exact absurd hp (by decide)
        rw [normalize0L_of_ne htne, htrim_t, hstrip_t]
        exact hgo
    · by_cases hsl2 : ("//".data).isPrefixOf (stripSlashL (trimL l)) = true
      · obtain ⟨rest, hrest⟩ := slash2_shape hsl2
        have hgo : normalize0Go (stripSlashL (trimL l))
            = "https:".data ++ stripSlashL (trimL l) := by
          unfold normalize0Go
          rw [if_neg hp, if_pos hsl2]
        rw [hgo, hrest]
        rw [show "https:".data ++ ('/' :: '/' :: rest)
            = "https://".data ++ rest from rfl]
        have hrne : rest ≠ [] := by
          intro he
          subst he
          have := hlastSl '/' (by rw [hrest]; rfl)
          exact absurd this (by decide)
        refine hfix rest hrne ?_
        rcases hgl : rest.getLast? with _ | c
        · exact absurd (List.getLast?_eq_none_iff.mp hgl) hrne
        · refine (getLast?_append_of_ne_nil _ _ hgl).trans ?_
          rw [hrest]
          exact (getLast?_append_of_ne_nil (['/', '/']) rest hgl).symm
      · by_cases hb : bareTests (stripSlashL (trimL l)) = true
        · have hgo : normalize0Go (stripSlashL (trimL l))
              = "https://".data ++ stripSlashL (trimL l) := by
            unfold normalize0Go
            rw [if_neg hp, if_neg hsl2, if_pos hb]
          rw [hgo]
          have htne : stripSlashL (trimL l) ≠ [] := by
            intro he
            rw [he] at hb
            exact absurd hb (by decide)
          refine hfix _ htne ?_
          rcases hgl : (stripSlashL (trimL l)).getLast? with _ | c
          · exact absurd (List.getLast?_eq_none_iff.mp hgl) htne
          · exact getLast?_append_of_ne_nil _ _ hgl
        · have hgo : normalize0Go (stripSlashL (trimL l)) = stripSlashL (trimL l) := by
            unfold normalize0Go
            rw [if_neg hp, if_neg hsl2, if_neg hb]
          rw [hgo]
          by_cases htne : stripSlashL (trimL l) = []
          · rw [htne]
            rfl
          · rw [normalize0L_of_ne htne, htrim_t, hstrip_t]
            exact hgo

/-- C10 counterexample: part_000's `normalizeUrl` is not idempotent.
On `"a /"` the first pass strips the trailing slash, exposing a
trailing space (`"a "`); the second pass trims that space away, so
normalizing twice gives `"a"` ≠ `"a "`. -/
theorem c10_not_idempotent_counterexample :
    Part000.normalizeUrl (Part000.normalizeUrl ("a /"))
      ≠ Part000.normalizeUrl ("a /") ∧
    Part000.normalizeUrl ("a /") = ("a ") ∧
    Part000.normalizeUrl ("a ") = ("a") := by
  refine ⟨by decide, by decide, by decide⟩

/-- C10 (amended): part_000's `normalizeUrl` is idempotent on every
input whose trimmed, trailing-slash-stripped form does not end in
whitespace — in particular on every URL it itself produces from such
inputs, so App.handleAnalyze's second normalization pass leaves them
unchanged.  (The only failure mode is a trailing slash shielding
whitespace, as in the counterexample.) -/
theorem c10_idempotent_on_clean (s : String)
    (h : endsInWS (stripSlashL (trimL s.data)) = false) :
    Part000.normalizeUrl (Part000.normalizeUrl s) = Part000.normalizeUrl s := by
  unfold Part000.normalizeUrl
  exact congrArg String.mk (normalize0L_idem s.data h)

/-- C10 amended-theorem witness: idempotence instantiated at concrete
inputs covering the upgrade, protocol-relative, bare-domain and
fallback branches. -/
theorem c10_idempotent_on_clean_witness :
    Part000.normalizeUrl (Part000.normalizeUrl ("http://x.com/"))
      = Part000.normalizeUrl ("http://x.com/") ∧
    Part000.normalizeUrl (Part000.normalizeUrl ("//cdn.x.io"))
      = Part000.normalizeUrl ("//cdn.x.io") ∧
    Part000.normalizeUrl (Part000.normalizeUrl (" example.com "))
      = Part000.normalizeUrl (" example.com ") ∧
    Part000.normalizeUrl (Part000.normalizeUrl ("not a url"))
      = Part000.normalizeUrl ("not a url") :=
  ⟨c10_idempotent_on_clean _ (by decide), c10_idempotent_on_clean _ (by decide),
   c10_idempotent_on_clean _ (by decide), c10_idempotent_on_clean _ (by decide)⟩

end SovereignAudit
